import Mathlib

/-!
Shallow embedding of the `assert-unmoved` crate's core file
(`src/assert_unmoved.rs`) and proofs of the specification claims.

The Rust type `AssertUnmoved<T>` wraps an `inner : T` together with
`this_addr : usize` (0 is the "never pinned-and-mutably-accessed" sentinel,
since no live Rust object has address 0) and
`first_pinned_mutably_accessed_at : Option<&'static Location<'static>>`.

Modelling conventions:
* memory addresses are `Nat`; the guard's current address is not a field of
  the struct in Rust (it is where the caller has placed the value), so each
  operation takes the current address `cur` as an explicit argument;
* `Location::caller()` is an explicit `caller : Location` argument;
* `thread::panicking()` is an explicit `panicking : Bool` argument of `drop`;
* a Rust panic is an `Except.error`.  `assert_eq!(a, b, fmt, loc.unwrap())`
  evaluates its format arguments only on failure, so on an address mismatch
  the code first unwraps `first_pinned_mutably_accessed_at`: if that is
  `None` the panic is an unwrap failure (`Panic.unwrapFailure`), otherwise it
  is the assertion failure carrying the formatted message;
* `&mut T` return values are modelled by returning the inner value together
  with the (possibly updated) guard state; writes through a returned mutable
  reference are modelled by the `setInner` operation.
-/

/-- Model of `core::panic::Location`: a source file position. -/
structure Location where
  file : String
  line : Nat
  column : Nat
deriving DecidableEq, Repr

/-- Rendering of a `Location` as its Rust `Display` impl does ("file:line:column"). -/
def Location.render (l : Location) : String :=
  l.file ++ ":" ++ toString l.line ++ ":" ++ toString l.column

/-- A Rust panic: either an `assert_eq!` failure carrying its formatted
message, or the panic of `Option::unwrap` on `None`. -/
inductive Panic where
  | assertionFailure (msg : String)
  | unwrapFailure
deriving DecidableEq, Repr

/-- Predicate: `hay` contains `needle` as a contiguous substring. -/
def ContainsSubstr (needle hay : String) : Prop :=
  ∃ pre post, hay = pre ++ needle ++ post

/-- The guard struct `AssertUnmoved<T>` from `src/assert_unmoved.rs`:
`inner` is the wrapped value, `this_addr` the address recorded at the first
pinned mutable access (0 before that), `first_pinned_mutably_accessed_at`
the call site of that first access. -/
structure AssertUnmoved (T : Type) where
  inner : T
  this_addr : Nat
  first_pinned_mutably_accessed_at : Option Location
deriving DecidableEq, Repr

namespace AssertUnmoved

/-- Embedding of `AssertUnmoved::new`: `Self { inner, this_addr: 0,
first_pinned_mutably_accessed_at: None }`. -/
def new (inner : T) : AssertUnmoved T :=
  { inner := inner, this_addr := 0, first_pinned_mutably_accessed_at := none }

/-- Embedding of `From<T> for AssertUnmoved<T>`: `Self::new(inner)`. -/
def fromInner (inner : T) : AssertUnmoved T :=
  new inner

/-- Embedding of `Default for AssertUnmoved<T>`: `Self::new(T::default())`.  Rust's
`Default::default` for `T` is modelled by `Inhabited.default`. -/
def defaultImpl [Inhabited T] : AssertUnmoved T :=
  new (Inhabited.default : T)

/-- Embedding of `AssertUnmoved::get_ref`: `&self.inner`, no check, no state change. -/
def get_ref (s : AssertUnmoved T) : T :=
  s.inner

/-- Embedding of `Deref for AssertUnmoved<T>`: `self.get_ref()`. -/
def deref (s : AssertUnmoved T) : T :=
  s.get_ref

/-- Writing through a mutable reference to the inner value (obtained from
`get_mut` or `get_pin_mut`): only the `inner` field changes. -/
def setInner (s : AssertUnmoved T) (x : T) : AssertUnmoved T :=
  { s with inner := x }

/-- The failure branch shared by `get_mut`, `get_pin_mut` and `drop`:
`assert_eq!` has already failed, so the format arguments are evaluated,
starting with `self.first_pinned_mutably_accessed_at.unwrap()`. -/
def mismatchPanic (firstAt : Option Location) (header : String) : Panic :=
  match firstAt with
  | none => Panic.unwrapFailure
  | some loc =>
      Panic.assertionFailure
        (header ++ "\n\tfirst pinned mutably accessed at " ++ loc.render ++ "\n")

/-- Embedding of `AssertUnmoved::get_mut` at current address `cur`: if `this_addr != 0`,
assert `this_addr == cur` (panicking with the "moved after get_pin_mut call"
message on mismatch); then return `&mut self.inner`.  The state is never
modified. -/
def get_mut (s : AssertUnmoved T) (cur : Nat) :
    Except Panic (T × AssertUnmoved T) :=
  if s.this_addr ≠ 0 then
    if s.this_addr = cur then
      Except.ok (s.inner, s)
    else
      Except.error
        (mismatchPanic s.first_pinned_mutably_accessed_at
          "AssertUnmoved moved after get_pin_mut call")
  else
    Except.ok (s.inner, s)

/-- Embedding of `AssertUnmoved::get_pin_mut` at current address `cur` with call site
`caller`: if `this_addr == 0` this is the first pinned mutable access, so
record `cur` and `caller`; otherwise assert `this_addr == cur` (panicking
with the "moved between get_pin_mut calls" message on mismatch).  Return the
pinned projection of `inner`. -/
def get_pin_mut (s : AssertUnmoved T) (cur : Nat) (caller : Location) :
    Except Panic (T × AssertUnmoved T) :=
  if s.this_addr = 0 then
    Except.ok (s.inner,
      { s with this_addr := cur, first_pinned_mutably_accessed_at := some caller })
  else if s.this_addr = cur then
    Except.ok (s.inner, s)
  else
    Except.error
      (mismatchPanic s.first_pinned_mutably_accessed_at
        "AssertUnmoved moved between get_pin_mut calls")

/-- Embedding of `PinnedDrop for AssertUnmoved<T>` at current address `cur`, with
`panicking = thread::panicking()`: if the thread is not panicking and
`this_addr != 0`, assert `this_addr == cur` (panicking with the
"moved before drop" message on mismatch); otherwise do nothing. -/
def drop (s : AssertUnmoved T) (cur : Nat) (panicking : Bool) :
    Except Panic Unit :=
  if ¬ panicking ∧ s.this_addr ≠ 0 then
    if s.this_addr = cur then
      Except.ok ()
    else
      Except.error
        (mismatchPanic s.first_pinned_mutably_accessed_at
          "AssertUnmoved moved before drop")
  else
    Except.ok ()

end AssertUnmoved

/-- Embedding of `core::task::Poll`. -/
inductive Poll (α : Type) where
  | ready (a : α)
  | pending
deriving DecidableEq, Repr

/-- The pattern of every pinned forwarding method in the adapter impls
(`Future::poll`, `Stream::poll_next`, the `Sink` methods, the async I/O
poll methods): call `get_pin_mut` once, then delegate the underlying
operation `op` to the obtained pinned reference.  The second component
counts the address validations (calls to `get_pin_mut`) performed:
always exactly one, and it happens before `op` runs, so on a validation
panic `op` is never invoked. -/
def forwardPinned (op : T → β × T) (s : AssertUnmoved T) (cur : Nat)
    (caller : Location) : Except Panic (β × AssertUnmoved T) × Nat :=
  match AssertUnmoved.get_pin_mut s cur caller with
  | Except.error p => (Except.error p, 1)
  | Except.ok (t, s') => (Except.ok ((op t).1, s'.setInner (op t).2), 1)

/-- The pattern of the shared-reference forwarding methods
(`FusedFuture::is_terminated`, `Stream::size_hint`,
`AsyncWrite::is_write_vectored`): call `get_ref` and delegate, with no
address validation at all (count 0). -/
def forwardRef (op : T → β) (s : AssertUnmoved T) : β × Nat :=
  (op s.get_ref, 0)

namespace AssertUnmoved

/-- Embedding of `Future for AssertUnmoved<F>`: `self.get_pin_mut().poll(cx)`.  The inner
future is modelled as a step function `pollF` from the future's state to a
`Poll` outcome and a successor state (the context `cx` is absorbed into
`pollF`). -/
def poll (pollF : F → Poll α × F) (s : AssertUnmoved F) (cur : Nat)
    (caller : Location) : Except Panic (Poll α × AssertUnmoved F) × Nat :=
  forwardPinned pollF s cur caller

/-- Embedding of `Stream for AssertUnmoved<S>`, `poll_next`:
`self.get_pin_mut().poll_next(cx)`. -/
def poll_next (pollNextF : S → Poll (Option α) × S) (s : AssertUnmoved S)
    (cur : Nat) (caller : Location) :
    Except Panic (Poll (Option α) × AssertUnmoved S) × Nat :=
  forwardPinned pollNextF s cur caller

/-- Embedding of `Stream for AssertUnmoved<S>`, `size_hint`:
`self.get_ref().size_hint()` — a shared-reference forwarding method. -/
def size_hint (sizeHintF : S → Nat × Option Nat) (s : AssertUnmoved S) :
    (Nat × Option Nat) × Nat :=
  forwardRef sizeHintF s

/-- Embedding of `FusedFuture for AssertUnmoved<F>`, `is_terminated`:
`self.get_ref().is_terminated()` — a shared-reference forwarding method. -/
def is_terminated (isTerminatedF : F → Bool) (s : AssertUnmoved F) :
    Bool × Nat :=
  forwardRef isTerminatedF s

/-- Embedding of `Sink for AssertUnmoved<S>`, `poll_ready`:
`self.get_pin_mut().poll_ready(cx)`. -/
def poll_ready (pollReadyF : S → Poll (Except ε Unit) × S)
    (s : AssertUnmoved S) (cur : Nat) (caller : Location) :
    Except Panic (Poll (Except ε Unit) × AssertUnmoved S) × Nat :=
  forwardPinned pollReadyF s cur caller

/-- Embedding of `Sink for AssertUnmoved<S>`, `start_send`:
`self.get_pin_mut().start_send(item)`. -/
def start_send (startSendF : S → I → Except ε Unit × S) (s : AssertUnmoved S)
    (item : I) (cur : Nat) (caller : Location) :
    Except Panic (Except ε Unit × AssertUnmoved S) × Nat :=
  forwardPinned (fun t => startSendF t item) s cur caller

/-- Embedding of `AsyncRead for AssertUnmoved<R>`, `poll_read`:
`self.get_pin_mut().poll_read(cx, buf)`.  A byte buffer is a `List Nat`. -/
def poll_read (pollReadF : R → List Nat → Poll (Except ε Nat) × R)
    (s : AssertUnmoved R) (buf : List Nat) (cur : Nat) (caller : Location) :
    Except Panic (Poll (Except ε Nat) × AssertUnmoved R) × Nat :=
  forwardPinned (fun t => pollReadF t buf) s cur caller

/-- Iterated polling of a bare future: poll `n` times, collecting the
outcomes and the final future state. -/
def pollIter (pollF : F → Poll α × F) : Nat → F → List (Poll α) × F
  | 0, f => ([], f)
  | n + 1, f =>
      ((pollF f).1 :: (pollIter pollF n (pollF f).2).1,
        (pollIter pollF n (pollF f).2).2)

/-- Iterated polling of the guard, all polls at the same current address
`cur` (the guard is never relocated between polls). -/
def guardPollIter (pollF : F → Poll α × F) :
    Nat → AssertUnmoved F → Nat → Location →
    Except Panic (List (Poll α) × AssertUnmoved F)
  | 0, s, _, _ => Except.ok ([], s)
  | n + 1, s, cur, caller =>
      match (poll pollF s cur caller).1 with
      | Except.error p => Except.error p
      | Except.ok (r, s') =>
          match guardPollIter pollF n s' cur caller with
          | Except.error p => Except.error p
          | Except.ok (rs, s'') => Except.ok (r :: rs, s'')

end AssertUnmoved

/-- An access that never pins the guard: `get_ref`, `Deref`, `get_mut` at
some current address, or writing through a previously obtained mutable
reference.  `getMut cur` carries the guard's address at the time of the
call, so a trace with different addresses models arbitrary relocations. -/
inductive UnfixedOp (T : Type) where
  | getRef
  | derefOp
  | getMut (cur : Nat)
  | setInnerOp (x : T)

/-- Run a trace of unfixed accesses on the guard. -/
def runUnfixed : List (UnfixedOp T) → AssertUnmoved T →
    Except Panic (AssertUnmoved T)
  | [], s => Except.ok s
  | UnfixedOp.getRef :: ops, s =>
      let _ := s.get_ref
      runUnfixed ops s
  | UnfixedOp.derefOp :: ops, s =>
      let _ := s.deref
      runUnfixed ops s
  | UnfixedOp.getMut cur :: ops, s =>
      match s.get_mut cur with
      | Except.error p => Except.error p
      | Except.ok (_, s') => runUnfixed ops s'
  | UnfixedOp.setInnerOp x :: ops, s =>
      runUnfixed ops (s.setInner x)

/-- States reachable from construction by the guard's own operations:
`new`, successful `get_mut`, successful `get_pin_mut`, and mutation of the
inner value through a returned mutable reference (which is also how every
capability-forwarding method updates the inner value after its
`get_pin_mut` call). -/
inductive Reachable : AssertUnmoved T → Prop where
  | new (x : T) : Reachable (AssertUnmoved.new x)
  | getMut {s : AssertUnmoved T} {cur : Nat} {t : T} {s' : AssertUnmoved T} :
      Reachable s → s.get_mut cur = Except.ok (t, s') → Reachable s'
  | getPinMut {s : AssertUnmoved T} {cur : Nat} {caller : Location} {t : T}
      {s' : AssertUnmoved T} :
      Reachable s → s.get_pin_mut cur caller = Except.ok (t, s') →
      Reachable s'
  | mutate {s : AssertUnmoved T} (x : T) :
      Reachable s → Reachable (s.setInner x)

/-! ## Helper lemmas -/

theorem containsSubstr_of_parts (pre needle post : String) :
    ContainsSubstr needle (pre ++ needle ++ post) :=
  ⟨pre, post, rfl⟩

/-- The message built by `mismatchPanic` from a header of the shape
`"AssertUnmoved " ++ needle` contains both the `needle` phrase and the
rendered first-access location. -/
theorem mismatchPanic_msg (loc : Location) (needle : String) :
    ∃ msg,
      AssertUnmoved.mismatchPanic (some loc) ("AssertUnmoved " ++ needle) =
        Panic.assertionFailure msg ∧
      ContainsSubstr needle msg ∧ ContainsSubstr loc.render msg := by
  refine ⟨_, rfl, ?_, ?_⟩
  · refine ⟨"AssertUnmoved ",
      "\n\tfirst pinned mutably accessed at " ++ loc.render ++ "\n", ?_⟩
    simp [String.append_assoc]
  · exact ⟨("AssertUnmoved " ++ needle) ++ "\n\tfirst pinned mutably accessed at ",
      "\n", by simp [String.append_assoc]⟩

/-- A concrete source location used by the witness theorems. -/
def wloc : Location :=
  { file := "tests/test.rs", line := 10, column := 4 }

/-! ## Claim theorems -/

/-- C3: the first `get_pin_mut` call on a guard whose address was never
recorded (`this_addr = 0`) records the current address `cur` and the call
site `caller`, returns the inner value, and never panics — for every
current address. -/
theorem get_pin_mut_first_spec (s : AssertUnmoved T) (cur : Nat)
    (caller : Location) (h : s.this_addr = 0) :
    s.get_pin_mut cur caller =
      Except.ok (s.inner,
        { s with this_addr := cur,
                 first_pinned_mutably_accessed_at := some caller }) := by
  simp [AssertUnmoved.get_pin_mut, h]

/-- Witness for C3: the first pinned mutable access of a fresh guard at
address 7 succeeds and records address and call site. -/
theorem get_pin_mut_first_spec_witness :
    (AssertUnmoved.new (3 : Nat)).this_addr = 0 ∧
    (AssertUnmoved.new (3 : Nat)).get_pin_mut 7 wloc =
      Except.ok (3, { inner := 3, this_addr := 7,
                      first_pinned_mutably_accessed_at := some wloc }) :=
  ⟨rfl, get_pin_mut_first_spec (AssertUnmoved.new 3) 7 wloc rfl⟩

/-- C9: `new` builds the unfixed state (no recorded address, no first-access
location) with no precondition and no failure mode (it is a total function
into `AssertUnmoved T`, not into `Except`), `From::from` equals `new`, and
`Default::default` equals `new` of the default inner value. -/
theorem constructors_spec (T : Type) [Inhabited T] (x : T) :
    AssertUnmoved.new x =
      { inner := x, this_addr := 0, first_pinned_mutably_accessed_at := none } ∧
    AssertUnmoved.fromInner x = AssertUnmoved.new x ∧
    (AssertUnmoved.defaultImpl : AssertUnmoved T) =
      AssertUnmoved.new (Inhabited.default : T) :=
  ⟨rfl, rfl, rfl⟩

/-- C1: on a guard whose first fixed access already happened
(`this_addr ≠ 0`, with the recorded first-access location `loc`), a further
`get_pin_mut` succeeds and returns the inner value, leaving the state
untouched, exactly when the current address equals the recorded one; on a
mismatch it panics with an assertion-failure message containing the phrase
"moved between get_pin_mut calls" (the code's wording of "relocated between
fixed accesses") and the first-access location. -/
theorem get_pin_mut_repeat_spec (s : AssertUnmoved T) (cur : Nat)
    (caller loc : Location) (hfix : s.this_addr ≠ 0)
    (hloc : s.first_pinned_mutably_accessed_at = some loc) :
    ((∃ r, s.get_pin_mut cur caller = Except.ok r) ↔ s.this_addr = cur) ∧
    (s.this_addr = cur → s.get_pin_mut cur caller = Except.ok (s.inner, s)) ∧
    (s.this_addr ≠ cur →
      ∃ msg, s.get_pin_mut cur caller =
          Except.error (Panic.assertionFailure msg) ∧
        ContainsSubstr "moved between get_pin_mut calls" msg ∧
        ContainsSubstr loc.render msg) := by
  refine ⟨?_, ?_, ?_⟩
  · constructor
    · rintro ⟨r, hr⟩
      by_contra hne
      simp [AssertUnmoved.get_pin_mut, hfix, hne] at hr
    · intro he
      subst he
      exact ⟨(s.inner, s), by simp [AssertUnmoved.get_pin_mut, hfix]⟩
  · intro he
    subst he
    simp [AssertUnmoved.get_pin_mut, hfix]
  · intro hne
    obtain ⟨msg, hmsg, h1, h2⟩ :=
      mismatchPanic_msg loc "moved between get_pin_mut calls"
    refine ⟨msg, ?_, h1, h2⟩
    simp only [AssertUnmoved.get_pin_mut, hfix, hne, hloc, if_false, if_neg hfix,
      if_neg hne]
    rw [← hmsg]
    simp [hloc]

/-- A concrete guard that already took its first fixed access at address 5,
used by the witness theorems. -/
def wfixed : AssertUnmoved Nat :=
  { inner := 3, this_addr := 5, first_pinned_mutably_accessed_at := some wloc }

/-- Witness for C1: on `wfixed` (recorded address 5) at current address 9,
`get_pin_mut` succeeds exactly when 5 = 9 (it does not), and the mismatch
panic message names the phrase and the first-access location. -/
theorem get_pin_mut_repeat_spec_witness :
    ((∃ r, wfixed.get_pin_mut 9 wloc = Except.ok r) ↔ wfixed.this_addr = 9) ∧
    (wfixed.this_addr = 9 →
      wfixed.get_pin_mut 9 wloc = Except.ok (wfixed.inner, wfixed)) ∧
    (wfixed.this_addr ≠ 9 →
      ∃ msg, wfixed.get_pin_mut 9 wloc =
          Except.error (Panic.assertionFailure msg) ∧
        ContainsSubstr "moved between get_pin_mut calls" msg ∧
        ContainsSubstr wloc.render msg) :=
  get_pin_mut_repeat_spec wfixed 9 wloc wloc (by decide) rfl

/-- C6: `get_mut` panics exactly when the guard was already pinned and
mutably accessed (`this_addr ≠ 0`) and its current address differs from the
recorded one — the same check `get_pin_mut` performs, stated as an
equivalence of their failure conditions — and it has no side effect beyond
the check: on success it returns the inner value with the state (hence
`this_addr` and `first_pinned_mutably_accessed_at`) completely unchanged.
On a mismatch the message names "moved after get_pin_mut call" and the
first-access location. -/
theorem get_mut_spec (s : AssertUnmoved T) (cur : Nat) :
    ((∃ p, s.get_mut cur = Except.error p) ↔
      (s.this_addr ≠ 0 ∧ s.this_addr ≠ cur)) ∧
    (∀ t s', s.get_mut cur = Except.ok (t, s') → t = s.inner ∧ s' = s) ∧
    (∀ caller : Location,
      ((∃ p, s.get_mut cur = Except.error p) ↔
        (∃ p, s.get_pin_mut cur caller = Except.error p))) ∧
    (∀ loc, s.first_pinned_mutably_accessed_at = some loc →
      s.this_addr ≠ 0 → s.this_addr ≠ cur →
      ∃ msg, s.get_mut cur = Except.error (Panic.assertionFailure msg) ∧
        ContainsSubstr "moved after get_pin_mut call" msg ∧
        ContainsSubstr loc.render msg) := by
  by_cases h0 : s.this_addr = 0
  · refine ⟨by simp [AssertUnmoved.get_mut, h0], ?_, ?_, ?_⟩
    · intro t s' h
      simp [AssertUnmoved.get_mut, h0] at h
      exact ⟨h.1.symm, h.2.symm⟩
    · intro caller
      simp [AssertUnmoved.get_mut, AssertUnmoved.get_pin_mut, h0]
    · intro loc _ hfix
      exact absurd h0 (by simpa using hfix)
  · by_cases hc : s.this_addr = cur
    · refine ⟨by simp [AssertUnmoved.get_mut, h0, hc], ?_, ?_, ?_⟩
      · intro t s' h
        simp [AssertUnmoved.get_mut, h0, hc] at h
        exact ⟨h.1.symm, h.2.symm⟩
      · intro caller
        subst hc
        simp [AssertUnmoved.get_mut, AssertUnmoved.get_pin_mut, h0]
      · intro loc _ _ hne
        exact absurd hc hne
    · refine ⟨by simp [AssertUnmoved.get_mut, h0, hc], ?_, ?_, ?_⟩
      · intro t s' h
        simp [AssertUnmoved.get_mut, h0, hc] at h
      · intro caller
        simp [AssertUnmoved.get_mut, AssertUnmoved.get_pin_mut, h0, hc]
      · intro loc hloc _ _
        obtain ⟨msg, hmsg, h1, h2⟩ :=
          mismatchPanic_msg loc "moved after get_pin_mut call"
        refine ⟨msg, ?_, h1, h2⟩
        simp only [AssertUnmoved.get_mut, h0, hc, hloc, ne_eq,
          not_false_eq_true, if_true, if_neg hc]
        rw [← hmsg]
        simp [hloc]

/-- Witness for C6: `get_mut` on `wfixed` (recorded address 5) at current
address 9 panics with the "moved after get_pin_mut call" message naming the
first-access location. -/
theorem get_mut_spec_witness :
    ∃ msg, wfixed.get_mut 9 = Except.error (Panic.assertionFailure msg) ∧
      ContainsSubstr "moved after get_pin_mut call" msg ∧
      ContainsSubstr wloc.render msg :=
  (get_mut_spec wfixed 9).2.2.2 wloc rfl (by decide) (by decide)

/-- C2: destruction panics exactly when the thread is not already
panicking, a recorded address exists, and the current address differs from
it; when the thread is panicking the check is skipped entirely and drop
never panics, and a guard that was never pinned and mutably accessed
(`this_addr = 0`) is never checked.  On a violation the message names
"moved before drop" (the code's wording of "relocated before destruction")
and the first-access location. -/
theorem drop_spec (s : AssertUnmoved T) (cur : Nat) (pk : Bool) :
    (pk = true → s.drop cur pk = Except.ok ()) ∧
    (s.this_addr = 0 → s.drop cur pk = Except.ok ()) ∧
    ((∃ p, s.drop cur pk = Except.error p) ↔
      (pk = false ∧ s.this_addr ≠ 0 ∧ s.this_addr ≠ cur)) ∧
    (∀ loc, s.first_pinned_mutably_accessed_at = some loc →
      pk = false → s.this_addr ≠ 0 → s.this_addr ≠ cur →
      ∃ msg, s.drop cur pk = Except.error (Panic.assertionFailure msg) ∧
        ContainsSubstr "moved before drop" msg ∧
        ContainsSubstr loc.render msg) := by
  cases pk
  · by_cases h0 : s.this_addr = 0
    · refine ⟨by simp, by simp [AssertUnmoved.drop, h0], ?_, ?_⟩
      · simp [AssertUnmoved.drop, h0]
      · intro loc _ _ hfix
        exact absurd h0 (by simpa using hfix)
    · by_cases hc : s.this_addr = cur
      · refine ⟨by simp, fun h => absurd h h0, ?_, ?_⟩
        · simp [AssertUnmoved.drop, h0, hc]
        · intro loc _ _ _ hne
          exact absurd hc hne
      · refine ⟨by simp, fun h => absurd h h0, ?_, ?_⟩
        · simp [AssertUnmoved.drop, h0, hc]
        · intro loc hloc _ _ _
          obtain ⟨msg, hmsg, h1, h2⟩ := mismatchPanic_msg loc "moved before drop"
          refine ⟨msg, ?_, h1, h2⟩
          simp only [AssertUnmoved.drop, h0, hc, Bool.false_eq_true,
            not_false_eq_true, ne_eq, and_true, if_true, if_neg hc]
          rw [← hmsg]
          simp [hloc]
  · exact ⟨fun _ => by simp [AssertUnmoved.drop], fun _ => by simp [AssertUnmoved.drop],
      by simp [AssertUnmoved.drop], fun loc _ h => by simp at h⟩

/-- Witness for C2: dropping `wfixed` (recorded address 5) at current
address 9 on a non-panicking thread panics with the "moved before drop"
message naming the first-access location. -/
theorem drop_spec_witness :
    ∃ msg, wfixed.drop 9 false = Except.error (Panic.assertionFailure msg) ∧
      ContainsSubstr "moved before drop" msg ∧
      ContainsSubstr wloc.render msg :=
  (drop_spec wfixed 9 false).2.2.2 wloc rfl rfl (by decide) (by decide)

/-- Unfixed accesses keep `this_addr = 0` and never panic. -/
theorem runUnfixed_stays_unfixed (ops : List (UnfixedOp T)) :
    ∀ s : AssertUnmoved T, s.this_addr = 0 →
      ∃ s', runUnfixed ops s = Except.ok s' ∧ s'.this_addr = 0 := by
  induction ops with
  | nil => exact fun s h => ⟨s, rfl, h⟩
  | cons op ops ih =>
      intro s h
      cases op with
      | getRef => simpa [runUnfixed] using ih s h
      | derefOp => simpa [runUnfixed] using ih s h
      | getMut cur =>
          obtain ⟨s', hs', h0⟩ := ih s h
          exact ⟨s', by simp [runUnfixed, AssertUnmoved.get_mut, h, hs'], h0⟩
      | setInnerOp x =>
          obtain ⟨s', hs', h0⟩ :=
            ih (s.setInner x) (by simpa [AssertUnmoved.setInner] using h)
          exact ⟨s', by simpa [runUnfixed] using hs', h0⟩

/-- C5: a guard that is constructed, subjected to any sequence of unfixed
accesses (`get_ref`, `Deref`, `get_mut` at arbitrary — hence arbitrarily
relocated — addresses, and writes through the obtained mutable reference),
and then dropped without ever taking a fixed access, never panics: every
`get_mut` succeeds and the final drop succeeds, at every drop address and
whether or not the thread is panicking. -/
theorem no_fixed_access_no_violation (x : T) (ops : List (UnfixedOp T))
    (cur : Nat) (pk : Bool) :
    ∃ s', runUnfixed ops (AssertUnmoved.new x) = Except.ok s' ∧
      s'.drop cur pk = Except.ok () := by
  obtain ⟨s', hs', h0⟩ :=
    runUnfixed_stays_unfixed ops (AssertUnmoved.new x) rfl
  exact ⟨s', hs', by simp [AssertUnmoved.drop, h0]⟩

/-- A successful `get_mut` returns the inner value and the unchanged state. -/
theorem get_mut_ok {s : AssertUnmoved T} {cur : Nat} {t : T}
    {s' : AssertUnmoved T} (h : s.get_mut cur = Except.ok (t, s')) :
    t = s.inner ∧ s' = s := by
  by_cases h0 : s.this_addr = 0
  · simp [AssertUnmoved.get_mut, h0] at h
    exact ⟨h.1.symm, h.2.symm⟩
  · by_cases hc : s.this_addr = cur
    · simp [AssertUnmoved.get_mut, h0, hc] at h
      exact ⟨h.1.symm, h.2.symm⟩
    · simp [AssertUnmoved.get_mut, h0, hc] at h

/-- A successful `get_pin_mut` returns the inner value, and the resulting
state is either the first-access recording (from the unfixed state) or the
unchanged state (repeat access at the recorded address). -/
theorem get_pin_mut_ok {s : AssertUnmoved T} {cur : Nat} {caller : Location}
    {t : T} {s' : AssertUnmoved T}
    (h : s.get_pin_mut cur caller = Except.ok (t, s')) :
    t = s.inner ∧
    ((s.this_addr = 0 ∧
        s' = { s with this_addr := cur,
                      first_pinned_mutably_accessed_at := some caller }) ∨
      (s.this_addr = cur ∧ s' = s)) := by
  by_cases h0 : s.this_addr = 0
  · simp [AssertUnmoved.get_pin_mut, h0] at h
    exact ⟨h.1.symm, Or.inl ⟨h0, h.2.symm⟩⟩
  · by_cases hc : s.this_addr = cur
    · subst hc
      simp [AssertUnmoved.get_pin_mut, h0] at h
      exact ⟨h.1.symm, Or.inr ⟨rfl, h.2.symm⟩⟩
    · simp [AssertUnmoved.get_pin_mut, h0, hc] at h

/-- C4: the guard is a one-way two-state machine.  `new` starts unfixed
(`this_addr = 0`, no first-access location); the first `get_pin_mut` at a
(non-null, as every live Rust address is) current address moves it to the
fixed state, recording address and call site; once fixed, a successful
`get_pin_mut` leaves the state completely unchanged, a successful `get_mut`
always leaves the state completely unchanged, mutation of the inner value
leaves `this_addr` and `first_pinned_mutably_accessed_at` unchanged, and a
successful capability-forwarding call (`get_pin_mut` then delegation)
leaves them unchanged as well — so no operation ever returns the guard to
the unfixed state or alters the recorded data. -/
theorem state_machine_one_way (T : Type) :
    (∀ x : T, (AssertUnmoved.new x).this_addr = 0 ∧
      (AssertUnmoved.new x).first_pinned_mutably_accessed_at = none) ∧
    (∀ (s : AssertUnmoved T) (cur : Nat) (caller : Location),
      s.this_addr = 0 → cur ≠ 0 →
      ∃ s', s.get_pin_mut cur caller = Except.ok (s.inner, s') ∧
        s'.this_addr = cur ∧ s'.this_addr ≠ 0 ∧
        s'.first_pinned_mutably_accessed_at = some caller ∧
        s'.inner = s.inner) ∧
    (∀ (s : AssertUnmoved T) (cur : Nat) (caller : Location)
        (t : T) (s' : AssertUnmoved T),
      s.this_addr ≠ 0 → s.get_pin_mut cur caller = Except.ok (t, s') →
      s' = s) ∧
    (∀ (s : AssertUnmoved T) (cur : Nat) (t : T) (s' : AssertUnmoved T),
      s.get_mut cur = Except.ok (t, s') → s' = s) ∧
    (∀ (s : AssertUnmoved T) (x : T),
      (s.setInner x).this_addr = s.this_addr ∧
      (s.setInner x).first_pinned_mutably_accessed_at =
        s.first_pinned_mutably_accessed_at) ∧
    (∀ (β : Type) (op : T → β × T) (s : AssertUnmoved T) (cur : Nat)
        (caller : Location) (b : β) (s' : AssertUnmoved T),
      s.this_addr ≠ 0 →
      (forwardPinned op s cur caller).1 = Except.ok (b, s') →
      s'.this_addr = s.this_addr ∧
      s'.first_pinned_mutably_accessed_at =
        s.first_pinned_mutably_accessed_at) := by
  refine ⟨fun x => ⟨rfl, rfl⟩, ?_, ?_, ?_, fun s x => ⟨rfl, rfl⟩, ?_⟩
  · intro s cur caller h0 hcur
    refine ⟨{ s with this_addr := cur, first_pinned_mutably_accessed_at := some caller }, ?_, rfl, hcur, rfl, rfl⟩
    simp [AssertUnmoved.get_pin_mut, h0]
  · intro s cur caller t s' hfix h
    rcases (get_pin_mut_ok h).2 with ⟨h0, _⟩ | ⟨_, hs⟩
    · exact absurd h0 hfix
    · exact hs
  · exact fun s cur t s' h => (get_mut_ok h).2
  · intro β op s cur caller b s' hfix h
    by_cases hc : s.this_addr = cur
    · subst hc
      have hgp : s.get_pin_mut s.this_addr caller = Except.ok (s.inner, s) := by
        simp [AssertUnmoved.get_pin_mut, hfix]
      rw [forwardPinned, hgp] at h
      simp at h
      rw [← h.2]
      exact ⟨rfl, rfl⟩
    · have hgp : s.get_pin_mut cur caller =
          Except.error (AssertUnmoved.mismatchPanic
            s.first_pinned_mutably_accessed_at
            "AssertUnmoved moved between get_pin_mut calls") := by
        simp [AssertUnmoved.get_pin_mut, hfix, hc]
      rw [forwardPinned, hgp] at h
      simp at h

/-- Witness for C4: a fresh guard pinned and mutably accessed at address 1
moves to the fixed state and records address and call site. -/
theorem state_machine_one_way_witness :
    ∃ s', (AssertUnmoved.new (3 : Nat)).get_pin_mut 1 wloc =
        Except.ok ((AssertUnmoved.new (3 : Nat)).inner, s') ∧
      s'.this_addr = 1 ∧ s'.this_addr ≠ 0 ∧
      s'.first_pinned_mutably_accessed_at = some wloc ∧
      s'.inner = (AssertUnmoved.new (3 : Nat)).inner :=
  (state_machine_one_way Nat).2.1 (AssertUnmoved.new 3) 1 wloc rfl (by decide)

/-- In every reachable state, a recorded address implies a recorded
first-access location. -/
theorem reachable_fixed_some {T : Type} {s : AssertUnmoved T}
    (h : Reachable s) :
    s.this_addr ≠ 0 → ∃ loc, s.first_pinned_mutably_accessed_at = some loc := by
  induction h with
  | new x => exact fun hfix => absurd rfl hfix
  | getMut hr heq ih =>
      rw [(get_mut_ok heq).2]
      exact ih
  | getPinMut hr heq ih =>
      rcases (get_pin_mut_ok heq).2 with ⟨_, hs⟩ | ⟨_, hs⟩
      · subst hs
        exact fun _ => ⟨_, rfl⟩
      · subst hs
        exact ih
  | mutate x hr ih => exact ih

/-- Lemma: `get_mut` can only fail with the address-mismatch panic built by
`mismatchPanic`. -/
theorem get_mut_error {s : AssertUnmoved T} {cur : Nat} {p : Panic}
    (h : s.get_mut cur = Except.error p) :
    s.this_addr ≠ 0 ∧ s.this_addr ≠ cur ∧
    p = AssertUnmoved.mismatchPanic s.first_pinned_mutably_accessed_at
          "AssertUnmoved moved after get_pin_mut call" := by
  by_cases h0 : s.this_addr = 0
  · simp [AssertUnmoved.get_mut, h0] at h
  · by_cases hc : s.this_addr = cur
    · subst hc
      simp [AssertUnmoved.get_mut, h0] at h
    · simp [AssertUnmoved.get_mut, h0, hc] at h
      exact ⟨h0, hc, h.symm⟩

/-- Lemma: `get_pin_mut` can only fail with the address-mismatch panic built by
`mismatchPanic`. -/
theorem get_pin_mut_error {s : AssertUnmoved T} {cur : Nat}
    {caller : Location} {p : Panic}
    (h : s.get_pin_mut cur caller = Except.error p) :
    s.this_addr ≠ 0 ∧ s.this_addr ≠ cur ∧
    p = AssertUnmoved.mismatchPanic s.first_pinned_mutably_accessed_at
          "AssertUnmoved moved between get_pin_mut calls" := by
  by_cases h0 : s.this_addr = 0
  · simp [AssertUnmoved.get_pin_mut, h0] at h
  · by_cases hc : s.this_addr = cur
    · subst hc
      simp [AssertUnmoved.get_pin_mut, h0] at h
    · simp [AssertUnmoved.get_pin_mut, h0, hc] at h
      exact ⟨h0, hc, h.symm⟩

/-- Lemma: `drop` can only fail with the address-mismatch panic built by
`mismatchPanic`. -/
theorem drop_error {s : AssertUnmoved T} {cur : Nat} {pk : Bool} {p : Panic}
    (h : s.drop cur pk = Except.error p) :
    pk = false ∧ s.this_addr ≠ 0 ∧ s.this_addr ≠ cur ∧
    p = AssertUnmoved.mismatchPanic s.first_pinned_mutably_accessed_at
          "AssertUnmoved moved before drop" := by
  cases pk
  · by_cases h0 : s.this_addr = 0
    · simp [AssertUnmoved.drop, h0] at h
    · by_cases hc : s.this_addr = cur
      · subst hc
        simp [AssertUnmoved.drop, h0] at h
      · simp [AssertUnmoved.drop, h0, hc] at h
        exact ⟨rfl, h0, hc, h.symm⟩
  · simp [AssertUnmoved.drop] at h

/-- C10: in every state reachable by the guard's own operations from
construction, a recorded address (`this_addr ≠ 0`) implies that the
first-access location is `some`; consequently the `unwrap` inside the
violation branches of `get_mut`, `get_pin_mut` and `drop` never itself
panics — every panic any of the three operations raises is the
address-mismatch assertion failure, never an unwrap failure. -/
theorem reachable_unwrap_safe (s : AssertUnmoved T) (h : Reachable s) :
    (s.this_addr ≠ 0 →
      ∃ loc, s.first_pinned_mutably_accessed_at = some loc) ∧
    (∀ cur p, s.get_mut cur = Except.error p →
      ∃ msg, p = Panic.assertionFailure msg) ∧
    (∀ cur caller p, s.get_pin_mut cur caller = Except.error p →
      ∃ msg, p = Panic.assertionFailure msg) ∧
    (∀ cur pk p, s.drop cur pk = Except.error p →
      ∃ msg, p = Panic.assertionFailure msg) := by
  have hinv := reachable_fixed_some h
  refine ⟨hinv, ?_, ?_, ?_⟩
  · intro cur p hp
    obtain ⟨hfix, _, hpeq⟩ := get_mut_error hp
    obtain ⟨loc, hloc⟩ := hinv hfix
    exact ⟨_, by rw [hpeq, hloc, AssertUnmoved.mismatchPanic]⟩
  · intro cur caller p hp
    obtain ⟨hfix, _, hpeq⟩ := get_pin_mut_error hp
    obtain ⟨loc, hloc⟩ := hinv hfix
    exact ⟨_, by rw [hpeq, hloc, AssertUnmoved.mismatchPanic]⟩
  · intro cur pk p hp
    obtain ⟨_, hfix, _, hpeq⟩ := drop_error hp
    obtain ⟨loc, hloc⟩ := hinv hfix
    exact ⟨_, by rw [hpeq, hloc, AssertUnmoved.mismatchPanic]⟩

/-- The state reached by one pinned mutable access of a fresh guard at
address 1, used by the witness theorems. -/
def wpinned : AssertUnmoved Nat :=
  { inner := 3, this_addr := 1, first_pinned_mutably_accessed_at := some wloc }

/-- Witness for C10: `wpinned` is reachable, has a recorded address, and
has a recorded first-access location. -/
theorem reachable_unwrap_safe_witness :
    ∃ loc, wpinned.first_pinned_mutably_accessed_at = some loc :=
  (reachable_unwrap_safe wpinned
    (Reachable.getPinMut (Reachable.new 3) rfl)).1 (by decide)

/-- Calling `get_pin_mut` at an address consistent with the recorded one (either
nothing recorded yet, or the same address) succeeds, returns the inner
value, and keeps the state consistent with that address. -/
theorem get_pin_mut_same_addr (s : AssertUnmoved F) (a : Nat)
    (caller : Location) (h : s.this_addr = 0 ∨ s.this_addr = a) :
    ∃ s₁, s.get_pin_mut a caller = Except.ok (s.inner, s₁) ∧
      s₁.inner = s.inner ∧ (s₁.this_addr = 0 ∨ s₁.this_addr = a) := by
  by_cases h0 : s.this_addr = 0
  · refine ⟨{ s with this_addr := a, first_pinned_mutably_accessed_at := some caller }, ?_, rfl, Or.inr rfl⟩
    simp [AssertUnmoved.get_pin_mut, h0]
  · rcases h with h | h
    · exact absurd h h0
    · refine ⟨s, ?_, rfl, Or.inr h⟩
      subst h
      simp [AssertUnmoved.get_pin_mut, h0]

/-- Polling the guard repeatedly at one fixed address yields exactly the
outcomes of polling the bare inner future, with the final inner state
matching and the recorded address staying consistent. -/
theorem guardPollIter_ok (pollF : F → Poll α × F) (n : Nat) :
    ∀ (s : AssertUnmoved F) (a : Nat) (caller : Location),
      (s.this_addr = 0 ∨ s.this_addr = a) →
      ∃ s', AssertUnmoved.guardPollIter pollF n s a caller =
          Except.ok ((AssertUnmoved.pollIter pollF n s.inner).1, s') ∧
        s'.inner = (AssertUnmoved.pollIter pollF n s.inner).2 ∧
        (s'.this_addr = 0 ∨ s'.this_addr = a) := by
  induction n with
  | zero => exact fun s a caller h => ⟨s, rfl, rfl, h⟩
  | succ n ih =>
      intro s a caller h
      obtain ⟨s₁, hgp, hin, hdisj⟩ := get_pin_mut_same_addr s a caller h
      have hstep : (AssertUnmoved.poll pollF s a caller).1 =
          Except.ok ((pollF s.inner).1, s₁.setInner (pollF s.inner).2) := by
        rw [AssertUnmoved.poll, forwardPinned, hgp]
      have hdisj₂ : ((s₁.setInner (pollF s.inner).2).this_addr = 0 ∨
          (s₁.setInner (pollF s.inner).2).this_addr = a) := hdisj
      obtain ⟨s', hrun, hin', hd'⟩ :=
        ih (s₁.setInner (pollF s.inner).2) a caller hdisj₂
      refine ⟨s', ?_, ?_, hd'⟩
      · rw [AssertUnmoved.guardPollIter, hstep]
        simp only [AssertUnmoved.setInner] at hrun
        simp [hrun, AssertUnmoved.pollIter, AssertUnmoved.setInner]
      · simpa [AssertUnmoved.pollIter, AssertUnmoved.setInner] using hin'

/-- C8: the guard exposes the future capability (its `poll` is defined),
and polling a freshly wrapped future `n` times — with the guard never
relocated after its first fixed access, i.e. all polls at one address —
succeeds and produces exactly the outcomes of polling the bare inner
future `n` times, with the guard's final inner state equal to the bare
future's final state. -/
theorem poll_transparency (F α : Type) (pollF : F → Poll α × F) (f : F)
    (n a : Nat) (caller : Location) :
    ∃ s', AssertUnmoved.guardPollIter pollF n (AssertUnmoved.new f) a caller =
        Except.ok ((AssertUnmoved.pollIter pollF n f).1, s') ∧
      s'.inner = (AssertUnmoved.pollIter pollF n f).2 := by
  obtain ⟨s', h1, h2, _⟩ :=
    guardPollIter_ok pollF n (AssertUnmoved.new f) a caller (Or.inl rfl)
  exact ⟨s', h1, h2⟩

/-- Counterexample for C7 as stated: `Stream::size_hint` is a
capability-forwarding call of the stream capability (its impl block is
cited with `poll_next`), yet it delegates through `get_ref` and performs
zero address validations, not one — shown here at the concrete inner
stream `fun n => (n, none)` wrapped fresh around 0. -/
theorem forwarding_one_validation_counterexample :
    ¬ (∀ (sizeHintF : Nat → Nat × Option Nat) (s : AssertUnmoved Nat),
        (AssertUnmoved.size_hint sizeHintF s).2 = 1) := by
  intro hall
  have h := hall (fun n => (n, none)) (AssertUnmoved.new 0)
  simp [AssertUnmoved.size_hint, forwardRef] at h

/-- C7 amended: every forwarding method that takes the guard by pinned
mutable reference (`Future::poll`, `Stream::poll_next`, the `Sink` methods
`poll_ready`/`start_send`, the async-I/O method `poll_read`, and in general
any instance of the `forwardPinned` pattern) performs exactly one address
validation — one `get_pin_mut` call — before delegating: on a validation
panic the forwarded operation is not applied and the panic propagates, on
success the delegate's result is returned.  The shared-reference forwarding
methods (`Stream::size_hint`, `FusedFuture::is_terminated`) perform zero
address validations and delegate through `get_ref`. -/
theorem forwarding_one_validation_amended :
    (∀ (T β : Type) (op : T → β × T) (s : AssertUnmoved T) (cur : Nat)
        (caller : Location),
      (forwardPinned op s cur caller).2 = 1 ∧
      (∀ p, AssertUnmoved.get_pin_mut s cur caller = Except.error p →
        (forwardPinned op s cur caller).1 = Except.error p) ∧
      (∀ t s', AssertUnmoved.get_pin_mut s cur caller = Except.ok (t, s') →
        (forwardPinned op s cur caller).1 =
          Except.ok ((op t).1, s'.setInner (op t).2))) ∧
    (∀ (F α : Type) (pollF : F → Poll α × F) (s : AssertUnmoved F)
        (cur : Nat) (caller : Location),
      (AssertUnmoved.poll pollF s cur caller).2 = 1) ∧
    (∀ (S α : Type) (f : S → Poll (Option α) × S) (s : AssertUnmoved S)
        (cur : Nat) (caller : Location),
      (AssertUnmoved.poll_next f s cur caller).2 = 1) ∧
    (∀ (S ε : Type) (f : S → Poll (Except ε Unit) × S) (s : AssertUnmoved S)
        (cur : Nat) (caller : Location),
      (AssertUnmoved.poll_ready f s cur caller).2 = 1) ∧
    (∀ (S I ε : Type) (f : S → I → Except ε Unit × S) (s : AssertUnmoved S)
        (item : I) (cur : Nat) (caller : Location),
      (AssertUnmoved.start_send f s item cur caller).2 = 1) ∧
    (∀ (R ε : Type) (f : R → List Nat → Poll (Except ε Nat) × R)
        (s : AssertUnmoved R) (buf : List Nat) (cur : Nat)
        (caller : Location),
      (AssertUnmoved.poll_read f s buf cur caller).2 = 1) ∧
    (∀ (S : Type) (f : S → Nat × Option Nat) (s : AssertUnmoved S),
      (AssertUnmoved.size_hint f s).2 = 0) ∧
    (∀ (F : Type) (f : F → Bool) (s : AssertUnmoved F),
      (AssertUnmoved.is_terminated f s).2 = 0) := by
  have hcount : ∀ (T β : Type) (op : T → β × T) (s : AssertUnmoved T)
      (cur : Nat) (caller : Location),
      (forwardPinned op s cur caller).2 = 1 := by
    intro T β op s cur caller
    rw [forwardPinned]
    rcases hg : AssertUnmoved.get_pin_mut s cur caller with p | r
    · rfl
    · rcases r with ⟨t, s'⟩
      rfl
  refine ⟨?_, ?_, ?_, ?_, ?_, ?_, fun S f s => rfl, fun F f s => rfl⟩
  · intro T β op s cur caller
    refine ⟨hcount T β op s cur caller, ?_, ?_⟩
    · intro p hp
      rw [forwardPinned, hp]
    · intro t s' hok
      rw [forwardPinned, hok]
  · exact fun F α pollF s cur caller => hcount F (Poll α) pollF s cur caller
  · exact fun S α f s cur caller => hcount S (Poll (Option α)) f s cur caller
  · exact fun S ε f s cur caller =>
      hcount S (Poll (Except ε Unit)) f s cur caller
  · exact fun S I ε f s item cur caller =>
      hcount S (Except ε Unit) (fun t => f t item) s cur caller
  · exact fun R ε f s buf cur caller =>
      hcount R (Poll (Except ε Nat)) (fun t => f t buf) s cur caller

/-- Witness for C7 (amended): polling a concrete wrapped future performs
exactly one address validation, and a concrete error from `get_pin_mut`
propagates unapplied. -/
theorem forwarding_one_validation_amended_witness :
    (AssertUnmoved.poll (fun k : Nat => (Poll.ready k, k + 1))
      (AssertUnmoved.new 0) 1 wloc).2 = 1 :=
  forwarding_one_validation_amended.2.1 Nat Nat
    (fun k => (Poll.ready k, k + 1)) (AssertUnmoved.new 0) 1 wloc
